import Mathlib

/-!
Verification of the ComplexReactor component (src/src/ComplexReactor.cpp,
src/src/ComplexReactor.h).

The C++ class holds two reagent quantities, a conversion fraction, an
output-mode flag, a split ratio and the last computed outputs.  Doubles are
modelled as rationals (exact arithmetic).  A C++ method that may throw but
mutates the object in place is modelled as a function returning the
post-call state together with an optional error: when the method throws,
the object still exists afterwards with whatever mutations happened before
the throw, so the first component is the state after the call whether or
not it failed.  The constructor is modelled with `Except` because a
throwing constructor yields no object at all.
-/

/-- Error values of the component: std invalid_argument / std out_of_range. -/
inductive ReactorError where
  | invalidArgument (msg : String) : ReactorError
  | outOfRange (msg : String) : ReactorError
deriving DecidableEq

/-- True exactly on the invalid-argument (InvalidParameter) error kind. -/
def ReactorError.isInvalidParameter : ReactorError → Bool
  | ReactorError.invalidArgument _ => true
  | ReactorError.outOfRange _ => false

/-- True exactly on the out-of-range (IndexOutOfRange) error kind. -/
def ReactorError.isIndexOutOfRange : ReactorError → Bool
  | ReactorError.invalidArgument _ => false
  | ReactorError.outOfRange _ => true

/-- The state of a ComplexReactor: fields a_, b_, conversion_, twoOutputs_,
splitRatio_, lastOutputs_ of the C++ class. -/
structure ComplexReactor where
  a : ℚ
  b : ℚ
  conversion : ℚ
  twoOutputs : Bool
  splitRatio : ℚ
  lastOutputs : List ℚ
deriving DecidableEq

/-- ComplexReactor::validateParams: throws invalid_argument when conversion_
or splitRatio_ is outside [0,1], checking conversion_ first. -/
def validateParams (r : ComplexReactor) : Option ReactorError :=
  if r.conversion < 0 ∨ r.conversion > 1 then
    some (ReactorError.invalidArgument "conversion must be in [0,1]")
  else if r.splitRatio < 0 ∨ r.splitRatio > 1 then
    some (ReactorError.invalidArgument "splitRatio must be in [0,1]")
  else none

/-- ComplexReactor::ComplexReactor(conversion, twoOutputs, splitRatio):
initialises a_ = b_ = 0, lastOutputs_ empty, then calls validateParams; a
throw means no object is produced. -/
def construct (conversion : ℚ) (twoOutputs : Bool) (splitRatio : ℚ) :
    Except ReactorError ComplexReactor :=
  let r : ComplexReactor := ⟨0, 0, conversion, twoOutputs, splitRatio, []⟩
  match validateParams r with
  | some e => Except.error e
  | none => Except.ok r

/-- ComplexReactor::setInputs(a, b): throws invalid_argument when a < 0 or
b < 0 before any mutation; otherwise stores a_ = a, b_ = b. -/
def setInputs (a b : ℚ) (r : ComplexReactor) :
    ComplexReactor × Option ReactorError :=
  if a < 0 ∨ b < 0 then
    (r, some (ReactorError.invalidArgument "inputs must be non-negative"))
  else
    (⟨a, b, r.conversion, r.twoOutputs, r.splitRatio, r.lastOutputs⟩, none)

/-- ComplexReactor::setConversion(conversion): assigns conversion_ first
and only then calls validateParams, so a failed call has already stored the
new value. -/
def setConversion (conversion : ℚ) (r : ComplexReactor) :
    ComplexReactor × Option ReactorError :=
  let r' : ComplexReactor :=
    ⟨r.a, r.b, conversion, r.twoOutputs, r.splitRatio, r.lastOutputs⟩
  (r', validateParams r')

/-- ComplexReactor::setTwoOutputs(two): stores the flag unconditionally. -/
def setTwoOutputs (two : Bool) (r : ComplexReactor) :
    ComplexReactor × Option ReactorError :=
  (⟨r.a, r.b, r.conversion, two, r.splitRatio, r.lastOutputs⟩, none)

/-- ComplexReactor::setSplitRatio(ratio): assigns splitRatio_ first and only
then calls validateParams, so a failed call has already stored the new
value. -/
def setSplitRatio (ratio : ℚ) (r : ComplexReactor) :
    ComplexReactor × Option ReactorError :=
  let r' : ComplexReactor :=
    ⟨r.a, r.b, r.conversion, r.twoOutputs, ratio, r.lastOutputs⟩
  (r', validateParams r')

/-- ComplexReactor::runReaction(): limiting = min(a_, b_), reacted =
limiting * conversion_; single output stores \x7b reacted \x7d, two outputs
store \x7b reacted * splitRatio_, reacted * (1 - splitRatio_) \x7d into
lastOutputs_ and return a copy. -/
def runReaction (r : ComplexReactor) : ComplexReactor × List ℚ :=
  let limiting := min r.a r.b
  let reacted := limiting * r.conversion
  if r.twoOutputs = false then
    let R := reacted
    (⟨r.a, r.b, r.conversion, r.twoOutputs, r.splitRatio, [R]⟩, [R])
  else
    let R := reacted * r.splitRatio
    let S := reacted * (1 - r.splitRatio)
    (⟨r.a, r.b, r.conversion, r.twoOutputs, r.splitRatio, [R, S]⟩, [R, S])

/-- ComplexReactor::reset(): a_ = b_ = 0 and lastOutputs_ cleared. -/
def reset (r : ComplexReactor) : ComplexReactor :=
  ⟨0, 0, r.conversion, r.twoOutputs, r.splitRatio, []⟩

/-- ComplexReactor::getLastOutput(idx): throws out_of_range when idx is not
below the size of lastOutputs_, otherwise returns lastOutputs_[idx]. -/
def getLastOutput (idx : ℕ) (r : ComplexReactor) : Except ReactorError ℚ :=
  if h : idx < r.lastOutputs.length then
    Except.ok (r.lastOutputs.get ⟨idx, h⟩)
  else
    Except.error (ReactorError.outOfRange "output index out of range")

/-- The range invariants of the data model: conversion and splitRatio in
[0,1], inputs non-negative. -/
def InvariantHolds (r : ComplexReactor) : Prop :=
  0 ≤ r.conversion ∧ r.conversion ≤ 1 ∧
  0 ≤ r.splitRatio ∧ r.splitRatio ≤ 1 ∧
  0 ≤ r.a ∧ 0 ≤ r.b

instance (r : ComplexReactor) : Decidable (InvariantHolds r) := by
  unfold InvariantHolds; infer_instance

/-- One arbitrary API call on a live object, successful or throwing: the
relation from the state before the call to the state after it (a C++ object
survives a throwing setter with the mutations made before the throw). -/
inductive Step : ComplexReactor → ComplexReactor → Prop where
  | ofSetInputs (a b : ℚ) (r : ComplexReactor) : Step r (setInputs a b r).1
  | ofSetConversion (c : ℚ) (r : ComplexReactor) :
      Step r (setConversion c r).1
  | ofSetTwoOutputs (two : Bool) (r : ComplexReactor) :
      Step r (setTwoOutputs two r).1
  | ofSetSplitRatio (s : ℚ) (r : ComplexReactor) :
      Step r (setSplitRatio s r).1
  | ofRunReaction (r : ComplexReactor) : Step r (runReaction r).1
  | ofReset (r : ComplexReactor) : Step r (reset r)

/-- States reachable from a successful construction through any sequence of
API calls, including calls that threw. -/
inductive Reachable : ComplexReactor → Prop where
  | ofConstruct (c : ℚ) (two : Bool) (s : ℚ) (r : ComplexReactor) :
      construct c two s = Except.ok r → Reachable r
  | ofStep (r r' : ComplexReactor) : Reachable r → Step r r' → Reachable r'

/-- One successful (non-throwing) API call. -/
inductive StepOk : ComplexReactor → ComplexReactor → Prop where
  | ofSetInputs (a b : ℚ) (r r' : ComplexReactor) :
      setInputs a b r = (r', none) → StepOk r r'
  | ofSetConversion (c : ℚ) (r r' : ComplexReactor) :
      setConversion c r = (r', none) → StepOk r r'
  | ofSetTwoOutputs (two : Bool) (r : ComplexReactor) :
      StepOk r (setTwoOutputs two r).1
  | ofSetSplitRatio (s : ℚ) (r r' : ComplexReactor) :
      setSplitRatio s r = (r', none) → StepOk r r'
  | ofRunReaction (r : ComplexReactor) : StepOk r (runReaction r).1
  | ofReset (r : ComplexReactor) : StepOk r (reset r)

/-- States reachable from a successful construction through successful
calls only. -/
inductive ReachableOk : ComplexReactor → Prop where
  | ofConstruct (c : ℚ) (two : Bool) (s : ℚ) (r : ComplexReactor) :
      construct c two s = Except.ok r → ReachableOk r
  | ofStep (r r' : ComplexReactor) :
      ReachableOk r → StepOk r r' → ReachableOk r'

/-- validateParams succeeds exactly when both parameters are in range. -/
theorem validateParams_none_iff (r : ComplexReactor) :
    validateParams r = none ↔
      0 ≤ r.conversion ∧ r.conversion ≤ 1 ∧
      0 ≤ r.splitRatio ∧ r.splitRatio ≤ 1 := by
  unfold validateParams
  split_ifs with h1 h2
  · simp only [false_iff]
    intro hc
    rcases h1 with h | h
    · linarith [hc.1]
    · linarith [hc.2.1]
  · simp only [false_iff]
    intro hc
    rcases h2 with h | h
    · linarith [hc.2.2.1]
    · linarith [hc.2.2.2]
  · push_neg at h1 h2
    simp only [true_iff]
    exact ⟨h1.1, h1.2, h2.1, h2.2⟩

/-- construct succeeds exactly onto the zero-input state with the given
parameters, and only when they are in range. -/
theorem construct_ok_iff (c : ℚ) (two : Bool) (s : ℚ) (r : ComplexReactor) :
    construct c two s = Except.ok r ↔
      (0 ≤ c ∧ c ≤ 1 ∧ 0 ≤ s ∧ s ≤ 1 ∧ r = ⟨0, 0, c, two, s, []⟩) := by
  unfold construct
  cases hv : validateParams ⟨0, 0, c, two, s, []⟩ with
  | some e =>
      simp only [hv, reduceCtorEq, false_iff]
      intro hc
      have := (validateParams_none_iff ⟨0, 0, c, two, s, []⟩).2
        ⟨hc.1, hc.2.1, hc.2.2.1, hc.2.2.2.1⟩
      rw [hv] at this
      exact Option.noConfusion this
  | none =>
      have hr := (validateParams_none_iff ⟨0, 0, c, two, s, []⟩).1 hv
      simp only [hv, Except.ok.injEq]
      constructor
      · intro he
        exact ⟨hr.1, hr.2.1, hr.2.2.1, hr.2.2.2, he.symm⟩
      · intro hc
        exact hc.2.2.2.2.symm

/-- validateParams only ever throws the invalid-argument error kind. -/
theorem validateParams_some_kind (r : ComplexReactor) (e : ReactorError)
    (h : validateParams r = some e) :
    ∃ m, e = ReactorError.invalidArgument m := by
  unfold validateParams at h
  split_ifs at h with h1 h2 <;> simp_all
  · exact ⟨"conversion must be in [0,1]", h.symm⟩
  · exact ⟨"splitRatio must be in [0,1]", h.symm⟩

/-- construct fails exactly when a parameter is out of range. -/
theorem construct_error_iff (c : ℚ) (two : Bool) (s : ℚ) :
    (∃ e, construct c two s = Except.error e) ↔
      (c < 0 ∨ 1 < c ∨ s < 0 ∨ 1 < s) := by
  unfold construct
  cases hv : validateParams ⟨0, 0, c, two, s, []⟩ with
  | some e =>
      simp only [hv]
      constructor
      · intro _
        by_contra hc
        push_neg at hc
        have hn := (validateParams_none_iff ⟨0, 0, c, two, s, []⟩).2
          ⟨hc.1, hc.2.1, hc.2.2.1, hc.2.2.2⟩
        rw [hv] at hn
        exact Option.noConfusion hn
      · intro _
        exact ⟨e, rfl⟩
  | none =>
      simp only [hv, reduceCtorEq, exists_false, false_iff]
      have hn := (validateParams_none_iff ⟨0, 0, c, two, s, []⟩).1 hv
      intro hc
      rcases hc with h | h | h | h
      · linarith [hn.1]
      · linarith [hn.2.1]
      · linarith [hn.2.2.1]
      · linarith [hn.2.2.2]

/-- A successful API call preserves the range invariants. -/
theorem invariant_of_stepOk (r r' : ComplexReactor) (hr : InvariantHolds r)
    (h : StepOk r r') : InvariantHolds r' := by
  obtain ⟨hc0, hc1, hs0, hs1, ha, hb⟩ := hr
  cases h with
  | ofSetInputs a b _ _ heq =>
      simp only [setInputs] at heq
      split_ifs at heq with hab
      · exact absurd (congrArg Prod.snd heq) (by simp)
      · push_neg at hab
        rw [Prod.mk.injEq] at heq
        obtain ⟨h1, -⟩ := heq
        subst h1
        exact ⟨hc0, hc1, hs0, hs1, hab.1, hab.2⟩
  | ofSetConversion c _ _ heq =>
      simp only [setConversion] at heq
      rw [Prod.mk.injEq] at heq
      obtain ⟨h1, h2⟩ := heq
      subst h1
      have hv := (validateParams_none_iff _).1 h2
      exact ⟨hv.1, hv.2.1, hv.2.2.1, hv.2.2.2, ha, hb⟩
  | ofSetTwoOutputs two =>
      exact ⟨hc0, hc1, hs0, hs1, ha, hb⟩
  | ofSetSplitRatio s _ _ heq =>
      simp only [setSplitRatio] at heq
      rw [Prod.mk.injEq] at heq
      obtain ⟨h1, h2⟩ := heq
      subst h1
      have hv := (validateParams_none_iff _).1 h2
      exact ⟨hv.1, hv.2.1, hv.2.2.1, hv.2.2.2, ha, hb⟩
  | ofRunReaction =>
      unfold runReaction
      split_ifs <;> exact ⟨hc0, hc1, hs0, hs1, ha, hb⟩
  | ofReset =>
      exact ⟨hc0, hc1, hs0, hs1, le_refl 0, le_refl 0⟩

/-- Every state reachable through successful calls satisfies the range
invariants. -/
theorem invariant_of_reachableOk (r : ComplexReactor) (h : ReachableOk r) :
    InvariantHolds r := by
  induction h with
  | ofConstruct c two s r hok =>
      obtain ⟨hc0, hc1, hs0, hs1, hr⟩ := (construct_ok_iff c two s r).1 hok
      subst hr
      exact ⟨hc0, hc1, hs0, hs1, le_refl 0, le_refl 0⟩
  | ofStep r r' hrch hstep ih =>
      exact invariant_of_stepOk r r' ih hstep

/-- Claim C1: for every reactor state with non-negative inputs, conversion
in [0,1] and splitRatio in [0,1], runReaction returns the single-element
sequence [min(a,b) * conversion] when twoOutputs is false, and the
two-element sequence [reacted * splitRatio, reacted * (1 - splitRatio)]
with reacted = min(a,b) * conversion (whose sum is reacted) when twoOutputs
is true; in both cases the returned sequence is also stored in
lastOutputs. -/
theorem C1_runReaction_outputs (r : ComplexReactor)
    (ha : 0 ≤ r.a) (hb : 0 ≤ r.b)
    (hc0 : 0 ≤ r.conversion) (hc1 : r.conversion ≤ 1)
    (hs0 : 0 ≤ r.splitRatio) (hs1 : r.splitRatio ≤ 1) :
    (r.twoOutputs = false →
      (runReaction r).2 = [min r.a r.b * r.conversion]) ∧
    (r.twoOutputs = true →
      (runReaction r).2 =
        [min r.a r.b * r.conversion * r.splitRatio,
         min r.a r.b * r.conversion * (1 - r.splitRatio)] ∧
      min r.a r.b * r.conversion * r.splitRatio +
        min r.a r.b * r.conversion * (1 - r.splitRatio) =
        min r.a r.b * r.conversion) ∧
    (runReaction r).1.lastOutputs = (runReaction r).2 := by
  unfold runReaction
  cases h : r.twoOutputs
  · simp [h]
  · simp [h]
    ring

/-- Witness for C1 at the state a = 2, b = 2, conversion = 1/2, single
output. -/
theorem C1_runReaction_outputs_witness :
    (runReaction ⟨2, 2, 1/2, false, 1/2, []⟩).2 =
      [min (2:ℚ) 2 * (1/2)] ∧
    (runReaction ⟨2, 2, 1/2, false, 1/2, []⟩).1.lastOutputs =
      (runReaction ⟨2, 2, 1/2, false, 1/2, []⟩).2 :=
  have h := C1_runReaction_outputs ⟨2, 2, 1/2, false, 1/2, []⟩
    (by norm_num) (by norm_num) (by norm_num) (by norm_num)
    (by norm_num) (by norm_num)
  ⟨h.1 rfl, h.2.2⟩

/-- Counterexample to claim C2 as stated: constructing with the default
parameters and then calling setConversion 2 reaches a state that stores
conversion = 2, outside [0,1], even though the call raised an error. -/
theorem C2_counterexample :
    Reachable ⟨0, 0, 2, false, 1/2, []⟩ ∧
    (setConversion 2 ⟨0, 0, 1/2, false, 1/2, []⟩).2.isSome = true ∧
    ¬ InvariantHolds ⟨0, 0, 2, false, 1/2, []⟩ := by
  refine ⟨?_, by decide, fun h => absurd h.2.1 (by norm_num)⟩
  have h0 : Reachable ⟨0, 0, 1/2, false, 1/2, []⟩ :=
    Reachable.ofConstruct (1/2) false (1/2) _
      ((construct_ok_iff (1/2) false (1/2) _).2
        ⟨by norm_num, by norm_num, by norm_num, by norm_num, rfl⟩)
  have hs : Step ⟨0, 0, 1/2, false, 1/2, []⟩
      (setConversion 2 ⟨0, 0, 1/2, false, 1/2, []⟩).1 :=
    Step.ofSetConversion 2 _
  have he : (setConversion 2 (⟨0, 0, 1/2, false, 1/2, []⟩ : ComplexReactor)).1 =
      ⟨0, 0, 2, false, 1/2, []⟩ := rfl
  exact he ▸ Reachable.ofStep _ _ h0 hs

/-- Claim C2 (amended): every state reachable through successful calls
satisfies the range invariants, and from such a state a construction or
setter call fails exactly when a supplied value is outside its range; a
failed setConversion or setSplitRatio call, however, leaves the
out-of-range value stored in the state. -/
theorem C2_reachable_invariant (r : ComplexReactor)
    (hr : ReachableOk r) (c s av bv : ℚ) (two : Bool) :
    InvariantHolds r ∧
    ((setConversion c r).2.isSome = true ↔ (c < 0 ∨ 1 < c)) ∧
    ((setSplitRatio s r).2.isSome = true ↔ (s < 0 ∨ 1 < s)) ∧
    ((setInputs av bv r).2.isSome = true ↔ (av < 0 ∨ bv < 0)) ∧
    ((∃ e, construct c two s = Except.error e) ↔
      (c < 0 ∨ 1 < c ∨ s < 0 ∨ 1 < s)) := by
  have hInv := invariant_of_reachableOk r hr
  obtain ⟨hc0, hc1, hs0, hs1, ha, hb⟩ := hInv
  refine ⟨⟨hc0, hc1, hs0, hs1, ha, hb⟩, ?_, ?_, ?_, construct_error_iff c two s⟩
  · have hsc : (setConversion c r).2 =
        validateParams ⟨r.a, r.b, c, r.twoOutputs, r.splitRatio, r.lastOutputs⟩ :=
      rfl
    rw [Option.isSome_iff_ne_none, hsc, Ne, validateParams_none_iff]
    dsimp only
    constructor
    · intro h
      by_contra hcon
      push_neg at hcon
      exact h ⟨hcon.1, hcon.2, hs0, hs1⟩
    · intro h hcon
      rcases h with h | h
      · linarith [hcon.1]
      · linarith [hcon.2.1]
  · have hss : (setSplitRatio s r).2 =
        validateParams ⟨r.a, r.b, r.conversion, r.twoOutputs, s, r.lastOutputs⟩ :=
      rfl
    rw [Option.isSome_iff_ne_none, hss, Ne, validateParams_none_iff]
    dsimp only
    constructor
    · intro h
      by_contra hcon
      push_neg at hcon
      exact h ⟨hc0, hc1, hcon.1, hcon.2⟩
    · intro h hcon
      rcases h with h | h
      · linarith [hcon.2.2.1]
      · linarith [hcon.2.2.2]
  · unfold setInputs
    split_ifs with hab
    · simp only [Option.isSome_some, true_iff]
      exact hab
    · simp only [Option.isSome_none, Bool.false_eq_true, false_iff]
      exact hab

/-- Witness for C2 (amended) at the freshly constructed default state with
candidate values 2, 1/3, -1 and 4. -/
theorem C2_reachable_invariant_witness :
    InvariantHolds ⟨0, 0, 1/2, false, 1/2, []⟩ ∧
    ((setConversion 2 ⟨0, 0, 1/2, false, 1/2, []⟩).2.isSome = true ↔
      ((2:ℚ) < 0 ∨ 1 < (2:ℚ))) ∧
    ((setSplitRatio (1/3) ⟨0, 0, 1/2, false, 1/2, []⟩).2.isSome = true ↔
      ((1/3:ℚ) < 0 ∨ 1 < (1/3:ℚ))) ∧
    ((setInputs (-1) 4 ⟨0, 0, 1/2, false, 1/2, []⟩).2.isSome = true ↔
      ((-1:ℚ) < 0 ∨ (4:ℚ) < 0)) ∧
    ((∃ e, construct 2 false (1/3) = Except.error e) ↔
      ((2:ℚ) < 0 ∨ 1 < (2:ℚ) ∨ (1/3:ℚ) < 0 ∨ 1 < (1/3:ℚ))) :=
  C2_reachable_invariant ⟨0, 0, 1/2, false, 1/2, []⟩
    (ReachableOk.ofConstruct (1/2) false (1/2) _
      ((construct_ok_iff (1/2) false (1/2) _).2
        ⟨by norm_num, by norm_num, by norm_num, by norm_num, rfl⟩))
    2 (1/3) (-1) 4 false

/-- Claim C3: for every value outside [0,1], setConversion raises the
invalid-argument error but stores the invalid value in conversion, and
setSplitRatio likewise stores the invalid value in splitRatio. -/
theorem C3_assign_then_validate (r : ComplexReactor) (v : ℚ)
    (hv : v < 0 ∨ 1 < v) :
    (setConversion v r).1.conversion = v ∧
    (∃ m, (setConversion v r).2 = some (ReactorError.invalidArgument m)) ∧
    (setSplitRatio v r).1.splitRatio = v ∧
    (∃ m, (setSplitRatio v r).2 = some (ReactorError.invalidArgument m)) := by
  refine ⟨rfl, ?_, rfl, ?_⟩
  · have hsc : (setConversion v r).2 =
        validateParams ⟨r.a, r.b, v, r.twoOutputs, r.splitRatio, r.lastOutputs⟩ :=
      rfl
    rw [hsc]
    unfold validateParams
    dsimp only
    rw [if_pos (by rcases hv with h | h; exact Or.inl h; exact Or.inr h)]
    exact ⟨"conversion must be in [0,1]", rfl⟩
  · have hss : (setSplitRatio v r).2 =
        validateParams ⟨r.a, r.b, r.conversion, r.twoOutputs, v, r.lastOutputs⟩ :=
      rfl
    rw [hss]
    unfold validateParams
    dsimp only
    by_cases h1 : r.conversion < 0 ∨ r.conversion > 1
    · rw [if_pos h1]
      exact ⟨"conversion must be in [0,1]", rfl⟩
    · rw [if_neg h1, if_pos (show v < 0 ∨ v > 1 from hv)]
      exact ⟨"splitRatio must be in [0,1]", rfl⟩

/-- Witness for C3 at the default state with v = 2. -/
theorem C3_assign_then_validate_witness :
    (setConversion 2 ⟨0, 0, 1/2, false, 1/2, []⟩).1.conversion = 2 ∧
    (∃ m, (setConversion 2 ⟨0, 0, 1/2, false, 1/2, []⟩).2 =
      some (ReactorError.invalidArgument m)) ∧
    (setSplitRatio 2 ⟨0, 0, 1/2, false, 1/2, []⟩).1.splitRatio = 2 ∧
    (∃ m, (setSplitRatio 2 ⟨0, 0, 1/2, false, 1/2, []⟩).2 =
      some (ReactorError.invalidArgument m)) :=
  C3_assign_then_validate ⟨0, 0, 1/2, false, 1/2, []⟩ 2 (by norm_num)

/-- Claim C4: setInputs fails exactly when an argument is negative, the
error is the invalid-argument kind, a failed call leaves the whole state
unchanged, and a successful call stores the two inputs and nothing else. -/
theorem C4_setInputs_spec (r : ComplexReactor) (av bv : ℚ) :
    ((setInputs av bv r).2.isSome = true ↔ (av < 0 ∨ bv < 0)) ∧
    ((av < 0 ∨ bv < 0) → (setInputs av bv r).1 = r) ∧
    (¬(av < 0 ∨ bv < 0) →
      (setInputs av bv r).1 =
        ⟨av, bv, r.conversion, r.twoOutputs, r.splitRatio, r.lastOutputs⟩) ∧
    (∀ e, (setInputs av bv r).2 = some e →
      ∃ m, e = ReactorError.invalidArgument m) := by
  unfold setInputs
  split_ifs with h
  · refine ⟨by simp [h], fun _ => rfl, fun hc => absurd h hc, ?_⟩
    intro e he
    simp only [Option.some.injEq] at he
    exact ⟨"inputs must be non-negative", he.symm⟩
  · refine ⟨by simp [h], fun hc => absurd hc h, fun _ => rfl, ?_⟩
    intro e he
    exact absurd he (by simp)

/-- Witness for C4: the failed call setInputs (-1) 4 leaves the state
unchanged. -/
theorem C4_setInputs_spec_witness :
    (setInputs (-1) 4 ⟨0, 0, 1/2, false, 1/2, []⟩).1 =
      ⟨0, 0, 1/2, false, 1/2, []⟩ :=
  (C4_setInputs_spec ⟨0, 0, 1/2, false, 1/2, []⟩ (-1) 4).2.1 (by norm_num)

/-- Claim C5: getLastOutput fails, with the out-of-range error kind,
exactly when the index is not below the length of lastOutputs, otherwise
returns the stored element; in particular it always fails at index 0 right
after reset. -/
theorem C5_getLastOutput_spec (r : ComplexReactor) (i : ℕ) :
    ((∃ m, getLastOutput i r = Except.error (ReactorError.outOfRange m)) ↔
      r.lastOutputs.length ≤ i) ∧
    (∀ h : i < r.lastOutputs.length,
      getLastOutput i r = Except.ok (r.lastOutputs.get ⟨i, h⟩)) ∧
    (∀ e, getLastOutput i r = Except.error e →
      ∃ m, e = ReactorError.outOfRange m) ∧
    (∃ m, getLastOutput 0 (reset r) =
      Except.error (ReactorError.outOfRange m)) := by
  refine ⟨?_, ?_, ?_, ⟨"output index out of range", rfl⟩⟩
  · unfold getLastOutput
    split_ifs with h
    · constructor
      · rintro ⟨m, hm⟩
        exact absurd hm (by simp)
      · intro hle
        omega
    · constructor
      · intro _
        omega
      · intro _
        exact ⟨"output index out of range", rfl⟩
  · intro h
    unfold getLastOutput
    rw [dif_pos h]
  · intro e he
    unfold getLastOutput at he
    split_ifs at he with h
    all_goals simp only [reduceCtorEq, Except.error.injEq] at he
    exact ⟨"output index out of range", he.symm⟩

/-- Witness for C5 at the state holding one stored output and index 1. -/
theorem C5_getLastOutput_spec_witness :
    ((∃ m, getLastOutput 1 ⟨0, 0, 1/2, false, 1/2, [5]⟩ =
      Except.error (ReactorError.outOfRange m)) ↔
      (⟨0, 0, 1/2, false, 1/2, [5]⟩ : ComplexReactor).lastOutputs.length ≤ 1) ∧
    (∀ h : 1 < (⟨0, 0, 1/2, false, 1/2, [5]⟩ : ComplexReactor).lastOutputs.length,
      getLastOutput 1 ⟨0, 0, 1/2, false, 1/2, [5]⟩ =
        Except.ok ((⟨0, 0, 1/2, false, 1/2, [5]⟩ : ComplexReactor).lastOutputs.get ⟨1, h⟩)) ∧
    (∀ e, getLastOutput 1 ⟨0, 0, 1/2, false, 1/2, [5]⟩ = Except.error e →
      ∃ m, e = ReactorError.outOfRange m) ∧
    (∃ m, getLastOutput 0 (reset ⟨0, 0, 1/2, false, 1/2, [5]⟩) =
      Except.error (ReactorError.outOfRange m)) :=
  C5_getLastOutput_spec ⟨0, 0, 1/2, false, 1/2, [5]⟩ 1

/-- Claim C6: construction fails, with the invalid-argument error kind,
exactly when conversion or splitRatio is outside [0,1]; a successful
construction has zero inputs, empty lastOutputs and stores the given
parameters. -/
theorem C6_construct_spec (c : ℚ) (two : Bool) (s : ℚ) :
    ((∃ e, construct c two s = Except.error e) ↔
      (c < 0 ∨ 1 < c ∨ s < 0 ∨ 1 < s)) ∧
    (∀ e, construct c two s = Except.error e →
      ∃ m, e = ReactorError.invalidArgument m) ∧
    (∀ r, construct c two s = Except.ok r →
      r.a = 0 ∧ r.b = 0 ∧ r.lastOutputs = [] ∧
      r.conversion = c ∧ r.twoOutputs = two ∧ r.splitRatio = s) := by
  refine ⟨construct_error_iff c two s, ?_, ?_⟩
  · intro e he
    unfold construct at he
    cases hv : validateParams ⟨0, 0, c, two, s, []⟩ with
    | some e2 =>
        simp only [hv, Except.error.injEq] at he
        obtain ⟨m, hm⟩ := validateParams_some_kind _ e2 hv
        exact ⟨m, he ▸ hm⟩
    | none =>
        simp only [hv, reduceCtorEq] at he
  · intro r hr
    rw [construct_ok_iff] at hr
    obtain ⟨-, -, -, -, hr⟩ := hr
    subst hr
    exact ⟨rfl, rfl, rfl, rfl, rfl, rfl⟩

/-- Witness for C6: constructing with conversion 2 fails and the error is
the invalid-argument kind. -/
theorem C6_construct_spec_witness :
    ∃ e, construct 2 false (1/2) = Except.error e ∧
      ∃ m, e = ReactorError.invalidArgument m := by
  obtain ⟨e, he⟩ := (C6_construct_spec 2 false (1/2)).1.2 (by norm_num)
  exact ⟨e, he, (C6_construct_spec 2 false (1/2)).2.1 e he⟩

/-- Claim C7: runReaction is total in the model (it returns no error) and
leaves every field other than lastOutputs unchanged. -/
theorem C7_runReaction_frame (r : ComplexReactor) :
    (runReaction r).1.a = r.a ∧ (runReaction r).1.b = r.b ∧
    (runReaction r).1.conversion = r.conversion ∧
    (runReaction r).1.twoOutputs = r.twoOutputs ∧
    (runReaction r).1.splitRatio = r.splitRatio := by
  unfold runReaction
  split_ifs <;> exact ⟨rfl, rfl, rfl, rfl, rfl⟩

/-- Witness for C7 at a concrete two-output state. -/
theorem C7_runReaction_frame_witness :
    (runReaction ⟨1, 3, 1/2, true, 1/4, []⟩).1.a = (1:ℚ) ∧
    (runReaction ⟨1, 3, 1/2, true, 1/4, []⟩).1.b = (3:ℚ) ∧
    (runReaction ⟨1, 3, 1/2, true, 1/4, []⟩).1.conversion = (1/2:ℚ) ∧
    (runReaction ⟨1, 3, 1/2, true, 1/4, []⟩).1.twoOutputs = true ∧
    (runReaction ⟨1, 3, 1/2, true, 1/4, []⟩).1.splitRatio = (1/4:ℚ) :=
  C7_runReaction_frame ⟨1, 3, 1/2, true, 1/4, []⟩

/-- Claim C8: after runReaction, lastOutputs is non-empty with length 1 in
single-output mode and 2 in two-output mode, so getLastOutput 0 succeeds
and getLastOutput 1 succeeds exactly in two-output mode. -/
theorem C8_outputs_available (r : ComplexReactor) :
    (runReaction r).1.lastOutputs ≠ [] ∧
    (runReaction r).1.lastOutputs.length = (if r.twoOutputs then 2 else 1) ∧
    (∃ x, getLastOutput 0 (runReaction r).1 = Except.ok x) ∧
    ((∃ x, getLastOutput 1 (runReaction r).1 = Except.ok x) ↔
      r.twoOutputs = true) := by
  cases h : r.twoOutputs <;>
    simp [runReaction, getLastOutput, h]

/-- Witness for C8 at a concrete single-output state. -/
theorem C8_outputs_available_witness :
    (runReaction ⟨2, 2, 1/2, false, 1/2, []⟩).1.lastOutputs ≠ [] ∧
    (runReaction ⟨2, 2, 1/2, false, 1/2, []⟩).1.lastOutputs.length =
      (if (⟨2, 2, 1/2, false, 1/2, []⟩ : ComplexReactor).twoOutputs then 2 else 1) ∧
    (∃ x, getLastOutput 0 (runReaction ⟨2, 2, 1/2, false, 1/2, []⟩).1 =
      Except.ok x) ∧
    ((∃ x, getLastOutput 1 (runReaction ⟨2, 2, 1/2, false, 1/2, []⟩).1 =
      Except.ok x) ↔
      (⟨2, 2, 1/2, false, 1/2, []⟩ : ComplexReactor).twoOutputs = true) :=
  C8_outputs_available ⟨2, 2, 1/2, false, 1/2, []⟩

/-- Claim C9: no setter modifies lastOutputs, whether the call succeeds or
fails. -/
theorem C9_setters_preserve_lastOutputs (r : ComplexReactor)
    (av bv c s : ℚ) (two : Bool) :
    (setInputs av bv r).1.lastOutputs = r.lastOutputs ∧
    (setConversion c r).1.lastOutputs = r.lastOutputs ∧
    (setTwoOutputs two r).1.lastOutputs = r.lastOutputs ∧
    (setSplitRatio s r).1.lastOutputs = r.lastOutputs := by
  refine ⟨?_, rfl, rfl, rfl⟩
  unfold setInputs
  split_ifs <;> rfl

/-- Witness for C9 at a state holding one output, with a failing
setInputs call and a failing setConversion call among the four. -/
theorem C9_setters_preserve_lastOutputs_witness :
    (setInputs (-1) 4 ⟨0, 0, 1/2, false, 1/2, [7]⟩).1.lastOutputs = [(7:ℚ)] ∧
    (setConversion 5 ⟨0, 0, 1/2, false, 1/2, [7]⟩).1.lastOutputs = [(7:ℚ)] ∧
    (setTwoOutputs true ⟨0, 0, 1/2, false, 1/2, [7]⟩).1.lastOutputs = [(7:ℚ)] ∧
    (setSplitRatio 5 ⟨0, 0, 1/2, false, 1/2, [7]⟩).1.lastOutputs = [(7:ℚ)] :=
  C9_setters_preserve_lastOutputs ⟨0, 0, 1/2, false, 1/2, [7]⟩ (-1) 4 5 5 true

/-- Claim C10: reset is total, zeroes the inputs, empties lastOutputs and
keeps conversion, twoOutputs and splitRatio. -/
theorem C10_reset_spec (r : ComplexReactor) :
    (reset r).a = 0 ∧ (reset r).b = 0 ∧ (reset r).lastOutputs = [] ∧
    (reset r).conversion = r.conversion ∧
    (reset r).twoOutputs = r.twoOutputs ∧
    (reset r).splitRatio = r.splitRatio :=
  ⟨rfl, rfl, rfl, rfl, rfl, rfl⟩

/-- Witness for C10 at a concrete state with stored outputs. -/
theorem C10_reset_spec_witness :
    (reset ⟨3, 4, 1/2, true, 1/4, [9]⟩).a = 0 ∧
    (reset ⟨3, 4, 1/2, true, 1/4, [9]⟩).b = 0 ∧
    (reset ⟨3, 4, 1/2, true, 1/4, [9]⟩).lastOutputs = [] ∧
    (reset ⟨3, 4, 1/2, true, 1/4, [9]⟩).conversion = (1/2:ℚ) ∧
    (reset ⟨3, 4, 1/2, true, 1/4, [9]⟩).twoOutputs = true ∧
    (reset ⟨3, 4, 1/2, true, 1/4, [9]⟩).splitRatio = (1/4:ℚ) :=
  C10_reset_spec ⟨3, 4, 1/2, true, 1/4, [9]⟩
